import Mathlib

/-!
Verification of the task lifecycle and time-accounting engine of a kanban-style
todo board (source: src/App.tsx and its later snapshot).

The data model and every operation are shallowly embedded from the TypeScript
source.  JavaScript `x ?? y` on an optional field is modelled by `Option.getD`,
and JavaScript truthiness tests (`x ? a : b`, `!x`) on optional numbers,
strings and booleans are modelled by the helpers `intTruthy`, `strTruthy` and
`boolTruthy` below (0, "" and false are falsy; null/undefined are `none`).
-/

namespace Todo

/-- Status of a task: the three kanban columns. -/
inductive Status where
  | todo
  | in_progress
  | completed
deriving DecidableEq

/-- Provenance of a task (`origin?: 'manual' | 'daily'`). -/
inductive Origin where
  | manual
  | daily
deriving DecidableEq

/-- `type SubTask = { id; title; done }`. -/
structure SubTask where
  id : String
  title : String
  done : Bool
deriving DecidableEq

/-- `type Task` from the source.  Optional fields become `Option`;
`startedAt?: number | null` collapses `null` and `undefined` to `none`
(the source never distinguishes the two). -/
structure Task where
  id : String
  title : String
  status : Status
  origin : Option Origin := none
  originId : Option String := none
  startedAt : Option Int := none
  accumulatedMs : Option Int := none
  paused : Option Bool := none
  subtasks : Option (List SubTask) := none
deriving DecidableEq

/-- `type DailyItem = { id; title }` — a daily template. -/
structure DailyItem where
  id : String
  title : String
deriving DecidableEq

/-- JavaScript truthiness of an optional number: null/undefined and 0 are falsy. -/
def intTruthy : Option Int → Bool
  | none => false
  | some v => v != 0

/-- JavaScript truthiness of an optional string: null/undefined and "" are falsy. -/
def strTruthy : Option String → Bool
  | none => false
  | some s => s != ""

/-- JavaScript truthiness of an optional boolean: null/undefined and false are falsy. -/
def boolTruthy : Option Bool → Bool
  | none => false
  | some b => b

/-- `transitionTask(t, status, at)` from the source:

```
function transitionTask(t: Task, status: Status, at: number): Task {
  if (t.status === status) {
    if (status === 'in_progress') {
      return { ...t, startedAt: t.startedAt ?? at, accumulatedMs: t.accumulatedMs ?? 0 };
    }
    return t;
  }
  if (t.status === 'in_progress' && status !== 'in_progress') {
    const acc = (t.accumulatedMs ?? 0) + (t.startedAt ? at - t.startedAt : 0);
    return { ...t, status, accumulatedMs: acc, startedAt: null };
  }
  if (t.status !== 'in_progress' && status === 'in_progress') {
    return { ...t, status, startedAt: at, accumulatedMs: t.accumulatedMs ?? 0 };
  }
  return { ...t, status };
}
``` -/
def transitionTask (t : Task) (status : Status) (now : Int) : Task :=
  if t.status = status then
    if status = .in_progress then
      { t with startedAt := some (t.startedAt.getD now),
               accumulatedMs := some (t.accumulatedMs.getD 0) }
    else t
  else if t.status = .in_progress then
    { t with status := status,
             accumulatedMs := some (t.accumulatedMs.getD 0 +
               (if intTruthy t.startedAt then now - t.startedAt.getD 0 else 0)),
             startedAt := none }
  else if status = .in_progress then
    { t with status := status, startedAt := some now,
             accumulatedMs := some (t.accumulatedMs.getD 0) }
  else
    { t with status := status }

/-- The fold performed when a running task is stopped by runner enforcement,
break enforcement or pause:
`{ ...t, startedAt: null, accumulatedMs: (t.accumulatedMs ?? 0) + (t.startedAt ? at - t.startedAt : 0) }`. -/
def foldStop (now : Int) (t : Task) : Task :=
  { t with startedAt := none,
           accumulatedMs := some (t.accumulatedMs.getD 0 +
             (if intTruthy t.startedAt then now - t.startedAt.getD 0 else 0)) }

/-- `updateStatus(id, status)` from the source (`at = Date.now()` made explicit):
maps `transitionTask` over the matching task and clears `paused` when the
target status is `in_progress`. -/
def updateStatusOp (id : String) (status : Status) (now : Int) (ts : List Task) : List Task :=
  ts.map fun t =>
    if t.id = id then
      { transitionTask t status now with
        paused := if status = .in_progress then some false else t.paused }
    else t

/-- The per-task function runner enforcement maps over the collection, given
the designated runner's id: the runner is auto-started when it has no truthy
`startedAt`; every other `in_progress` task with a truthy `startedAt` is
stopped. -/
def enforceBody (now : Int) (runnerId : String) (t : Task) : Task :=
  if t.status ≠ .in_progress then t
  else if t.id = runnerId then
    if boolTruthy t.paused then t
    else if !(intTruthy t.startedAt) then
      { t with startedAt := some now, accumulatedMs := some (t.accumulatedMs.getD 0) }
    else t
  else if intTruthy t.startedAt then foldStop now t
  else t

/-- Body of the runner-enforcement effect (the flag-free version; the snapshot
with flags wraps it, see `enforceRunner`): find the first non-paused
`in_progress` task (the runner); auto-start it if it has no (truthy)
`startedAt`; stop every other `in_progress` task with a truthy `startedAt`. -/
def enforceCore (now : Int) (ts : List Task) : List Task :=
  match ts.find? (fun t => t.status == .in_progress && !(boolTruthy t.paused)) with
  | none => ts
  | some runner => ts.map (enforceBody now runner.id)

/-- One arm of the break branch of runner enforcement: stop a task iff it is
`in_progress` with a truthy `startedAt`. -/
def breakStop (now : Int) (t : Task) : Task :=
  if t.status == .in_progress && intTruthy t.startedAt then foldStop now t else t

/-- The runner-enforcement effect of the snapshot with Pomodoro flags:
if the break is active, fold-and-clear every running task and return;
otherwise if suppress-auto-start is set, return the list unchanged;
otherwise run the core enforcement. -/
def enforceRunner (isBreakActive suppressAutoStart : Bool) (now : Int)
    (ts : List Task) : List Task :=
  if isBreakActive then ts.map (breakStop now)
  else if suppressAutoStart then ts
  else enforceCore now ts

/-- `onToggleRun` from the source: only the matching `in_progress` task is
touched; paused-or-not-started resumes (`paused := false, startedAt := at`),
otherwise it pauses (fold elapsed, clear `startedAt`, `paused := true`). -/
def onToggleRun (id : String) (now : Int) (ts : List Task) : List Task :=
  ts.map fun x =>
    if x.id ≠ id then x
    else if x.status ≠ .in_progress then x
    else if boolTruthy x.paused || !(intTruthy x.startedAt) then
      { x with paused := some false, startedAt := some now }
    else
      { x with startedAt := none,
               accumulatedMs := some (x.accumulatedMs.getD 0 +
                 (if intTruthy x.startedAt then now - x.startedAt.getD 0 else 0)),
               paused := some true }

/-- The application state the seeder, the title editor and the template
remover act on: the ordered task collection, the ordered daily-template
collection, and the seed marker (`localStorage[LAST_SEED_KEY]`, `none` when
never written). -/
structure AppState where
  tasks : List Task
  dailyItems : List DailyItem
  lastSeed : Option String
deriving DecidableEq

/-- The task materialized from a daily template during seeding:
status `todo`, origin `daily`, `originId` = template id, zeroed timer fields,
empty subtasks.  The generated id is passed in (the source draws it from
`Date.now()` and `Math.random()`). -/
def mkSeedTask (id : String) (d : DailyItem) : Task :=
  { id := id, title := d.title, status := .todo, origin := some .daily,
    originId := some d.id, startedAt := none, accumulatedMs := some 0,
    paused := some false, subtasks := some [] }

/-- `dailyItems.map(d => ({ id: <fresh>, ... }))` — one seeded task per
template, with fresh ids `gen 0, gen 1, ...`. -/
def seedTasks (gen : Nat → String) : Nat → List DailyItem → List Task
  | _, [] => []
  | i, d :: ds => mkSeedTask (gen i) d :: seedTasks gen (i + 1) ds

/-- The daily seeding effect: if the stored marker differs from today's key
and there is at least one template, prepend one task per template to the
collection and set the marker to today's key; otherwise do nothing. -/
def seedIfNeeded (todayKey : String) (gen : Nat → String) (s : AppState) : AppState :=
  if s.lastSeed ≠ some todayKey ∧ 0 < s.dailyItems.length then
    { s with tasks := seedTasks gen 0 s.dailyItems ++ s.tasks,
             lastSeed := some todayKey }
  else s

/-- JavaScript `String.prototype.trim`: drop whitespace from both ends.
(Defined structurally over the character list so that it evaluates; Lean's
own `String.trim` has the same meaning but does not kernel-reduce.) -/
def jsTrim (s : String) : String :=
  String.mk (((s.data.dropWhile Char.isWhitespace).reverse.dropWhile
    Char.isWhitespace).reverse)

/-- `updateTitle(id, next)` from the source: reject blank titles, find the
task; when it is a daily-origin task with a truthy `originId`, update the
owning template and every task sharing that `originId` (and the target);
otherwise update only the target task. -/
def updateTitle (id next : String) (s : AppState) : AppState :=
  let title := jsTrim next
  if title = "" then s
  else
    match s.tasks.find? (fun t => t.id == id) with
    | none => s
    | some current =>
      if current.origin = some .daily ∧ strTruthy current.originId then
        { s with
          dailyItems := s.dailyItems.map fun d =>
            if some d.id = current.originId then { d with title := title } else d,
          tasks := s.tasks.map fun t =>
            if t.origin = some .daily ∧ t.originId = current.originId then
              { t with title := title }
            else if t.id = id then { t with title := title }
            else t }
      else
        { s with tasks := s.tasks.map fun t =>
            if t.id = id then { t with title := title } else t }

/-- `removeDaily(id)` from the source: drop the template with this id and
filter out every task with `origin = daily` and `originId = id`. -/
def removeDaily (id : String) (s : AppState) : AppState :=
  { s with
    dailyItems := s.dailyItems.filter fun d => d.id != id,
    tasks := s.tasks.filter fun t =>
      !(t.origin == some Origin.daily && t.originId == some id) }

/-- `addTask` / `addTaskFromPanel` from the source: reject blank titles,
prepend a fresh manual todo task with zeroed timer fields. -/
def addTaskOp (id title : String) (ts : List Task) : List Task :=
  if jsTrim title = "" then ts
  else
    { id := id, title := jsTrim title, status := .todo, origin := some .manual,
      originId := none, startedAt := none, accumulatedMs := some 0,
      paused := some false, subtasks := some [] } :: ts

/-- The column branch of `onDragEnd`: if the dragged task exists and its
status differs from the target column, apply `updateStatus`; otherwise
nothing happens. -/
def dropOnColumnOp (id : String) (target : Status) (now : Int)
    (ts : List Task) : List Task :=
  match ts.find? (fun t => t.id == id) with
  | none => ts
  | some moved => if moved.status ≠ target then updateStatusOp id target now ts else ts

/-- The card branch of `onDragEnd`: transition the dragged task to the
dropped-on task's status (clearing `paused` when that status is
`in_progress`), remove it from its position and reinsert it immediately
before the target task (index 0 when the target is not found after
removal). -/
def dropOnCardOp (activeId overId : String) (now : Int)
    (ts : List Task) : List Task :=
  match ts.find? (fun t => t.id == overId) with
  | none => ts
  | some over =>
    match ts.findIdx? (fun t => t.id == activeId) with
    | none => ts
    | some i =>
      match ts[i]? with
      | none => ts
      | some dragged =>
        let item := { transitionTask dragged over.status now with
                      paused := if over.status = .in_progress then some false
                                else dragged.paused }
        let arr := ts.eraseIdx i
        let j := (arr.findIdx? (fun t => t.id == over.id)).getD 0
        arr.insertIdx j item

/-- The operations of the C1 claim (create, update-status, move/reorder,
toggle-run, seeding, cascade removal), with clock values and generated ids
made explicit parameters. -/
inductive Op where
  | create (id title : String)
  | updateStatus (id : String) (target : Status) (t : Int)
  | dropOnColumn (id : String) (target : Status) (t : Int)
  | dropOnCard (activeId overId : String) (t : Int)
  | toggleRun (id : String) (t : Int)
  | seed (items : List DailyItem) (gen : Nat → String)
  | removeTemplate (tid : String)

/-- Effect of one operation on the task collection. -/
def applyOp (op : Op) (ts : List Task) : List Task :=
  match op with
  | .create id title => addTaskOp id title ts
  | .updateStatus id target t => updateStatusOp id target t ts
  | .dropOnColumn id target t => dropOnColumnOp id target t ts
  | .dropOnCard a o t => dropOnCardOp a o t ts
  | .toggleRun id t => onToggleRun id t ts
  | .seed items gen => seedTasks gen 0 items ++ ts
  | .removeTemplate tid =>
      ts.filter fun t => !(t.origin == some Origin.daily && t.originId == some tid)

/-- The clock value carried by an operation, when it has one, is nonzero. -/
def Op.timeOkB : Op → Bool
  | .updateStatus _ _ t => t != 0
  | .dropOnColumn _ _ t => t != 0
  | .dropOnCard _ _ t => t != 0
  | .toggleRun _ t => t != 0
  | _ => true

/-- The task ids an operation introduces into the collection. -/
def Op.newIds : Op → List String
  | .create id _ => [id]
  | .seed items gen => (seedTasks gen 0 items).map Task.id
  | _ => []

/-- All ids introduced along a sequence of (operation, enforcement-time)
pairs. -/
def seqNewIds (seq : List (Op × Int)) : List String :=
  (seq.map (fun p => p.1.newIds)).flatten

/-- One step of the claimed execution model: apply the operation, then run
the (flag-free) runner enforcement at the given clock value. -/
def step (ts : List Task) (p : Op × Int) : List Task :=
  enforceCore p.2 (applyOp p.1 ts)

/-- Run a sequence of (operation, enforcement-time) steps from a state. -/
def runFrom (ts : List Task) (seq : List (Op × Int)) : List Task :=
  seq.foldl step ts

/-- Run a sequence of steps from the initial (empty) collection. -/
def runOps (seq : List (Op × Int)) : List Task :=
  runFrom [] seq

/-- Every set `startedAt` in the collection is nonzero (all clock reads were
nonzero, so no stored timestamp is the JavaScript-falsy 0). -/
def startTimesOk (ts : List Task) : Prop :=
  ∀ t ∈ ts, ∀ v : Int, t.startedAt = some v → v ≠ 0

/-- No paused `in_progress` task has a set `startedAt`. -/
def pausedStopped (ts : List Task) : Prop :=
  ∀ t ∈ ts, t.status = .in_progress → boolTruthy t.paused = true → t.startedAt = none

/-- The inductive state invariant threaded through every operation. -/
def TasksOk (ts : List Task) : Prop :=
  startTimesOk ts ∧ pausedStopped ts

/-- The ids of the tasks in the collection. -/
def idsOf (ts : List Task) : List String :=
  ts.map Task.id

/-- A task currently accruing time: `in_progress`, not paused, `startedAt`
set. -/
def isRunnerB (t : Task) : Bool :=
  t.status == Status.in_progress && !(boolTruthy t.paused) && t.startedAt.isSome

/-- The C1 property: at most one task has
`status = in_progress ∧ paused = false ∧ startedAt set`, and every other
`in_progress` task has `startedAt` absent. -/
def RunnerInvariant (ts : List Task) : Prop :=
  ts.countP isRunnerB ≤ 1 ∧
  ∀ t ∈ ts, t.status = .in_progress → isRunnerB t = false → t.startedAt = none

end Todo

namespace Todo

/-- C3: `transition(t, t.status, now)` returns `t` unchanged when `t.status`
is not `in_progress`; when `t.status = in_progress` the result has
`startedAt = some (t.startedAt.getD now)` and
`accumulatedMs = some (t.accumulatedMs.getD 0)` — i.e. both fields are
defaulted only when absent — and in particular an already-set `startedAt`
is kept unchanged (the clock is not restarted). -/
theorem transition_idempotent_reentry :
    (∀ (t : Task) (now : Int), t.status ≠ .in_progress →
      transitionTask t t.status now = t) ∧
    (∀ (t : Task) (now : Int), t.status = .in_progress →
      (transitionTask t t.status now).startedAt = some (t.startedAt.getD now) ∧
      (transitionTask t t.status now).accumulatedMs = some (t.accumulatedMs.getD 0) ∧
      (∀ S : Int, t.startedAt = some S →
        (transitionTask t t.status now).startedAt = some S)) := by
  constructor
  · intro t now h
    simp [transitionTask, h]
  · intro t now h
    refine ⟨by simp [transitionTask, h], by simp [transitionTask, h], ?_⟩
    intro S hS
    simp [transitionTask, h, hS]

/-- Witness for C3 at a concrete running task and a concrete idle task. -/
theorem transition_idempotent_reentry_witness :
    (transitionTask { id := "x", title := "X", status := .todo } .todo 9
        = { id := "x", title := "X", status := .todo }) ∧
    (transitionTask
        { id := "y", title := "Y", status := .in_progress, startedAt := some 5 }
        .in_progress 9).startedAt = some 5 := by
  constructor
  · exact transition_idempotent_reentry.1 { id := "x", title := "X", status := .todo } 9
      (by decide)
  · exact (transition_idempotent_reentry.2
      { id := "y", title := "Y", status := .in_progress, startedAt := some 5 } 9
      (by decide)).2.2 5 rfl

/-- C2 counterexample input: a running task whose `startedAt` is set to the
(falsy) timestamp 0, with 5ms already accumulated. -/
def zeroStartTask : Task :=
  { id := "x", title := "X", status := .in_progress,
    startedAt := some 0, accumulatedMs := some 5 }

/-- C2 counterexample: the folding law fails when `startedAt` is set to 0.
The claim demands `accumulatedMs = 5 + (100 - 0) = 105`, but since JavaScript
treats `startedAt = 0` as falsy the source adds nothing and keeps 5. -/
theorem fold_law_fails_at_zero :
    (transitionTask zeroStartTask .todo 100).accumulatedMs = some 5 ∧
    (transitionTask zeroStartTask .todo 100).accumulatedMs ≠ some (5 + (100 - 0)) := by
  decide

/-- C2 (amended): for every task `t` with `status = in_progress` and
`startedAt` set to a nonzero `S`, transitioning to any `status' ≠ in_progress`
at time `now` folds the elapsed time: the result has the target status,
`accumulatedMs = (old accumulatedMs defaulted to 0) + (now - S)`, and
`startedAt` absent; all other fields are unchanged. -/
theorem fold_law (t : Task) (status : Status) (now S : Int)
    (hip : t.status = .in_progress) (hne : status ≠ .in_progress)
    (hS : t.startedAt = some S) (hS0 : S ≠ 0) :
    transitionTask t status now =
      { t with status := status,
               accumulatedMs := some (t.accumulatedMs.getD 0 + (now - S)),
               startedAt := none } := by
  have hts : t.status ≠ status := by
    rw [hip]; exact fun h => hne h.symm
  have htr : intTruthy (some S) = true := by
    simp [intTruthy, hS0]
  simp [transitionTask, hts, hip, htr, hS, Ne.symm hne]

/-- Witness for C2 (amended) at a concrete running task. -/
theorem fold_law_witness :
    transitionTask
        { id := "y", title := "Y", status := .in_progress,
          startedAt := some 3, accumulatedMs := some 5 } .completed 10
      = { id := "y", title := "Y", status := .completed,
          startedAt := none, accumulatedMs := some (5 + (10 - 3)) } :=
  fold_law
    { id := "y", title := "Y", status := .in_progress,
      startedAt := some 3, accumulatedMs := some 5 }
    .completed 10 3 rfl (by decide) rfl (by decide)

/-- C4 counterexample input: two running (non-paused, started) `in_progress`
tasks; the second one is not the designated runner. -/
def suppressTaskA : Task :=
  { id := "a", title := "A", status := .in_progress,
    startedAt := some 1, accumulatedMs := some 0, paused := some false }

/-- Companion to `suppressTaskA`: the non-runner running task. -/
def suppressTaskB : Task :=
  { id := "b", title := "B", status := .in_progress,
    startedAt := some 2, accumulatedMs := some 0, paused := some false }

/-- C4 counterexample: with suppress-auto-start set and break-active clear,
runner enforcement leaves the non-runner running task `b` completely
untouched — its `startedAt` stays `some 2` instead of being folded and
cleared as the claim demands. -/
theorem suppress_does_not_stop_nonrunner :
    enforceRunner false true 5 [suppressTaskA, suppressTaskB]
        = [suppressTaskA, suppressTaskB] ∧
    suppressTaskB.status = .in_progress ∧
    suppressTaskB.startedAt = some 2 ∧
    suppressTaskB.startedAt ≠ none := by
  decide

/-- C4 (amended): while the suppress-auto-start flag is set and the
break-active flag is clear, runner enforcement is a complete no-op: it
neither auto-starts any task nor stops any running task — the task list is
returned unchanged. -/
theorem suppress_enforcement_noop (now : Int) (ts : List Task) :
    enforceRunner false true now ts = ts := rfl

/-- C5 counterexample input: an `in_progress` task whose `startedAt` is set
to the (falsy) timestamp 0. -/
def zeroStartRunner : Task :=
  { id := "x", title := "X", status := .in_progress,
    startedAt := some 0, accumulatedMs := some 3, paused := some false }

/-- C5 counterexample: while the break is active, enforcement does NOT stop
an `in_progress` task whose `startedAt` is set to 0 (JavaScript treats it as
falsy): the task keeps `startedAt = some 0` instead of having it cleared as
the claim demands. -/
theorem break_does_not_stop_zero_start :
    enforceRunner true false 7 [zeroStartRunner] = [zeroStartRunner] ∧
    zeroStartRunner.status = .in_progress ∧
    zeroStartRunner.startedAt = some 0 ∧
    zeroStartRunner.startedAt ≠ none := by
  decide

/-- C5 (amended): while break-active is set (whatever suppress-auto-start is),
runner enforcement maps `breakStop` over the collection: every `in_progress`
task with a nonzero `startedAt` is folded (`accumulatedMs += now - startedAt`)
and its `startedAt` cleared, regardless of runner designation; no task ever
gets a new `startedAt` (it is either kept or cleared); hence afterwards no
`in_progress` task has a truthy `startedAt` — no task is accruing time. -/
theorem break_stops_all_running (sup : Bool) (now : Int) (ts : List Task) :
    enforceRunner true sup now ts = ts.map (breakStop now) ∧
    (∀ t ∈ ts, t.status = .in_progress → ∀ S : Int, t.startedAt = some S → S ≠ 0 →
      breakStop now t =
        { t with startedAt := none,
                 accumulatedMs := some (t.accumulatedMs.getD 0 + (now - S)) }) ∧
    (∀ t ∈ ts, (breakStop now t).startedAt = t.startedAt ∨
      (breakStop now t).startedAt = none) ∧
    (∀ u ∈ ts.map (breakStop now), u.status = .in_progress →
      intTruthy u.startedAt = false) := by
  refine ⟨rfl, ?_, ?_, ?_⟩
  · intro t _ hip S hS hS0
    have htr : intTruthy (some S) = true := by simp [intTruthy, hS0]
    simp [breakStop, foldStop, hip, hS, htr]
  · intro t _
    by_cases h : (t.status == .in_progress && intTruthy t.startedAt) = true
    · right; simp [breakStop, h, foldStop]
    · left; simp [breakStop, h]
  · intro u hu hip
    rcases List.mem_map.1 hu with ⟨t, _, rfl⟩
    by_cases h : (t.status == .in_progress && intTruthy t.startedAt) = true
    · rw [breakStop, if_pos h]
      simp [foldStop, intTruthy]
    · rw [breakStop, if_neg h] at hip ⊢
      rcases Bool.eq_false_or_eq_true (intTruthy t.startedAt) with htr | hf
      · exact absurd (by simp [hip, htr]) h
      · exact hf

/-- C5 amended witness: the break branch at a concrete collection with one
running task (`startedAt = 4`) and one todo task. -/
theorem break_stops_all_running_witness :
    enforceRunner true false 10
        [{ id := "r", title := "R", status := .in_progress,
           startedAt := some 4, accumulatedMs := some 2, paused := some false },
         { id := "s", title := "S", status := .todo }]
      = List.map (breakStop 10)
        [{ id := "r", title := "R", status := .in_progress,
           startedAt := some 4, accumulatedMs := some 2, paused := some false },
         { id := "s", title := "S", status := .todo }] ∧
    breakStop 10
        { id := "r", title := "R", status := .in_progress,
          startedAt := some 4, accumulatedMs := some 2, paused := some false }
      = { id := "r", title := "R", status := .in_progress,
          startedAt := none, accumulatedMs := some (2 + (10 - 4)), paused := some false } := by
  constructor
  · exact (break_stops_all_running false 10 _).1
  · exact (break_stops_all_running false 10
      [{ id := "r", title := "R", status := .in_progress,
         startedAt := some 4, accumulatedMs := some 2, paused := some false },
       { id := "s", title := "S", status := .todo }]).2.1
      _ (by simp) rfl 4 rfl (by decide)

/-- The C6 scenario: `UpdateStatus(A.id, in_progress, t1)` followed by runner
enforcement at `e1`, then `UpdateStatus(B.id, in_progress, t2)` followed by
runner enforcement at `e2`, on the two-task collection `[A, B]`. -/
def twoManualRuns (A B : Task) (t1 e1 t2 e2 : Int) : List Task :=
  enforceCore e2 (updateStatusOp B.id .in_progress t2
    (enforceCore e1 (updateStatusOp A.id .in_progress t1 [A, B])))

/-- C6 counterexample input: the task that is set to `in_progress` first. -/
def seqTaskA : Task := { id := "a", title := "A", status := .todo }

/-- C6 counterexample input: the task that is set to `in_progress` second. -/
def seqTaskB : Task := { id := "b", title := "B", status := .todo }

/-- C6 counterexample: setting A then B to `in_progress` (each followed by
runner enforcement) leaves A — the first task in collection order — running
with `startedAt = some 1`, while B is stopped with `startedAt = none`.  The
claim demands the opposite (only B running, A folded and cleared). -/
theorem manual_sequence_claim_false :
    ((twoManualRuns seqTaskA seqTaskB 1 1 2 3).find?
        (fun t => t.id == "b")).map Task.startedAt = some none ∧
    ((twoManualRuns seqTaskA seqTaskB 1 1 2 3).find?
        (fun t => t.id == "a")).map Task.startedAt = some (some 1) := by
  decide

/-- C6 (amended): on a collection `[A, B]` of two distinct-id tasks neither of
which is `in_progress`, setting A then B to `in_progress` (each step followed
by runner enforcement, with nonzero clock values) leaves only the FIRST task
in collection order — A — running (`startedAt = some t1`, `paused = false`),
while B is stopped: its elapsed time `e2 - t2` is folded into its
`accumulatedMs` and its `startedAt` is cleared. -/
theorem manual_sequence_first_wins (A B : Task) (t1 e1 t2 e2 : Int)
    (hid : A.id ≠ B.id) (hA : A.status ≠ .in_progress) (hB : B.status ≠ .in_progress)
    (ht1 : t1 ≠ 0) (ht2 : t2 ≠ 0) :
    twoManualRuns A B t1 e1 t2 e2 =
      [{ A with status := .in_progress, startedAt := some t1,
                accumulatedMs := some (A.accumulatedMs.getD 0), paused := some false },
       { B with status := .in_progress, startedAt := none,
                accumulatedMs := some (B.accumulatedMs.getD 0 + (e2 - t2)),
                paused := some false }] := by
  simp [twoManualRuns, updateStatusOp, transitionTask, enforceCore, enforceBody,
    foldStop, boolTruthy, intTruthy, hid, Ne.symm hid, hA, hB, ht1, ht2]

/-- C6 amended witness at concrete tasks and times. -/
theorem manual_sequence_first_wins_witness :
    twoManualRuns { id := "a", title := "A", status := .todo }
        { id := "b", title := "B", status := .completed } 1 1 2 3
      = [{ id := "a", title := "A", status := .in_progress, startedAt := some 1,
           accumulatedMs := some 0, paused := some false },
         { id := "b", title := "B", status := .in_progress, startedAt := none,
           accumulatedMs := some (3 - 2), paused := some false }] := by
  have h := manual_sequence_first_wins
    { id := "a", title := "A", status := .todo }
    { id := "b", title := "B", status := .completed } 1 1 2 3
    (by decide) (by decide) (by decide) (by decide) (by decide)
  simpa using h

/-- C10: toggle-run for an id whose task is not `in_progress`, or for an id
not present in the collection, leaves every task unchanged. -/
theorem toggle_run_noop_outside_in_progress (id : String) (now : Int) (ts : List Task)
    (h : ∀ t ∈ ts, t.id = id → t.status ≠ .in_progress) :
    onToggleRun id now ts = ts := by
  have : ∀ t ∈ ts,
      (if t.id ≠ id then t
       else if t.status ≠ .in_progress then t
       else if boolTruthy t.paused || !(intTruthy t.startedAt) then
         { t with paused := some false, startedAt := some now }
       else
         { t with startedAt := none,
                  accumulatedMs := some (t.accumulatedMs.getD 0 +
                    (if intTruthy t.startedAt then now - t.startedAt.getD 0 else 0)),
                  paused := some true }) = t := by
    intro t ht
    by_cases hid : t.id = id
    · simp [hid, h t ht hid]
    · simp [hid]
  calc onToggleRun id now ts = ts.map (fun t => t) := List.map_congr_left this
    _ = ts := List.map_id ts

/-- Helper for C7: seeding materializes exactly one task per template. -/
theorem seedTasks_length (gen : Nat → String) :
    ∀ (i : Nat) (ds : List DailyItem), (seedTasks gen i ds).length = ds.length := by
  intro i ds
  induction ds generalizing i with
  | nil => rfl
  | cons d ds ih => simp [seedTasks, ih]

/-- Helper for C7: each seeded task carries its template's title and id, has
status `todo`, origin `daily` and zeroed timer fields. -/
theorem seedTasks_spec (gen : Nat → String) :
    ∀ (i : Nat) (ds : List DailyItem),
      List.Forall₂ (fun d nt => nt.title = d.title ∧ nt.status = .todo ∧
          nt.origin = some .daily ∧ nt.originId = some d.id ∧
          nt.startedAt = none ∧ nt.accumulatedMs = some 0)
        ds (seedTasks gen i ds) := by
  intro i ds
  induction ds generalizing i with
  | nil => exact List.Forall₂.nil
  | cons d ds ih =>
    exact List.Forall₂.cons (by simp [mkSeedTask]) (ih (i + 1))

/-- C7: with a non-empty template collection and a marker different from
today's key, the first seeding run prepends exactly one task per template
(status `todo`, origin `daily`, `originId` = template id, zeroed timers) and
sets the marker to today's key; running the seeder again on the same day
(with any id generator) is a no-op. -/
theorem seeding_idempotent (today : String) (gen gen2 : Nat → String) (s : AppState)
    (h1 : s.lastSeed ≠ some today) (h2 : s.dailyItems ≠ []) :
    (seedIfNeeded today gen s).tasks = seedTasks gen 0 s.dailyItems ++ s.tasks ∧
    (seedIfNeeded today gen s).lastSeed = some today ∧
    (seedIfNeeded today gen s).dailyItems = s.dailyItems ∧
    (seedTasks gen 0 s.dailyItems).length = s.dailyItems.length ∧
    List.Forall₂ (fun d nt => nt.title = d.title ∧ nt.status = .todo ∧
        nt.origin = some .daily ∧ nt.originId = some d.id ∧
        nt.startedAt = none ∧ nt.accumulatedMs = some 0)
      s.dailyItems (seedTasks gen 0 s.dailyItems) ∧
    seedIfNeeded today gen2 (seedIfNeeded today gen s) = seedIfNeeded today gen s := by
  have hlen : 0 < s.dailyItems.length := List.length_pos.mpr h2
  have hcond : s.lastSeed ≠ some today ∧ 0 < s.dailyItems.length := ⟨h1, hlen⟩
  refine ⟨?_, ?_, ?_, seedTasks_length gen 0 s.dailyItems,
    seedTasks_spec gen 0 s.dailyItems, ?_⟩
  · simp [seedIfNeeded, hcond]
  · simp [seedIfNeeded, hcond]
  · simp [seedIfNeeded, hcond]
  · have hfirst : seedIfNeeded today gen s =
        { s with tasks := seedTasks gen 0 s.dailyItems ++ s.tasks,
                 lastSeed := some today } := by
      simp [seedIfNeeded, hcond]
    rw [hfirst]
    simp [seedIfNeeded]

/-- C7 witness input: one template, marker never written. -/
def seedEgState : AppState :=
  { tasks := [], dailyItems := [{ id := "d1", title := "Stretch" }], lastSeed := none }

/-- C7 witness: instantiates the seeding theorem at `seedEgState`. -/
theorem seeding_idempotent_witness :
    (seedIfNeeded "2026-10-11" (fun _ => "n1") seedEgState).tasks
      = seedTasks (fun _ => "n1") 0 seedEgState.dailyItems ++ seedEgState.tasks ∧
    (seedIfNeeded "2026-10-11" (fun _ => "n1") seedEgState).lastSeed
      = some "2026-10-11" ∧
    (seedIfNeeded "2026-10-11" (fun _ => "n1") seedEgState).dailyItems
      = seedEgState.dailyItems ∧
    (seedTasks (fun _ => "n1") 0 seedEgState.dailyItems).length
      = seedEgState.dailyItems.length ∧
    List.Forall₂ (fun (d : DailyItem) (nt : Task) => nt.title = d.title ∧
        nt.status = .todo ∧ nt.origin = some .daily ∧ nt.originId = some d.id ∧
        nt.startedAt = none ∧ nt.accumulatedMs = some 0)
      seedEgState.dailyItems (seedTasks (fun _ => "n1") 0 seedEgState.dailyItems) ∧
    seedIfNeeded "2026-10-11" (fun _ => "n2")
        (seedIfNeeded "2026-10-11" (fun _ => "n1") seedEgState)
      = seedIfNeeded "2026-10-11" (fun _ => "n1") seedEgState :=
  seeding_idempotent "2026-10-11" (fun _ => "n1") (fun _ => "n2") seedEgState
    (by decide) (by decide)

/-- C8 counterexample input: two daily tasks and a template whose shared
`originId` is the empty string — set, but falsy in JavaScript. -/
def blankOriginState : AppState :=
  { tasks :=
      [{ id := "a", title := "old", status := .todo,
         origin := some .daily, originId := some "" },
       { id := "b", title := "old", status := .todo,
         origin := some .daily, originId := some "" }],
    dailyItems := [{ id := "", title := "old" }],
    lastSeed := none }

/-- C8 counterexample: editing task "a" (origin `daily`, `originId = some ""`)
updates only the target; the sibling "b" and the template keep the old title
because the source treats the empty-string `originId` as falsy and skips the
fan-out, contradicting the claim. -/
theorem daily_title_fanout_fails_blank_originId :
    ((updateTitle "a" "new" blankOriginState).tasks.find?
        (fun t => t.id == "a")).map Task.title = some "new" ∧
    ((updateTitle "a" "new" blankOriginState).tasks.find?
        (fun t => t.id == "b")).map Task.title = some "old" ∧
    (updateTitle "a" "new" blankOriginState).dailyItems
      = [{ id := "", title := "old" }] := by
  decide

/-- C8 (amended): for a task with origin `daily` and a NON-EMPTY `originId`
`d`, `UpdateTitle` with a non-blank trimmed title retitles the template `d`,
the target task and every task sharing `origin = daily, originId = d`; a
blank trimmed title or an absent id changes nothing. -/
theorem daily_title_fanout :
    (∀ (s : AppState) (id next : String) (current : Task) (d : String),
      jsTrim next ≠ "" →
      s.tasks.find? (fun t => t.id == id) = some current →
      current.origin = some .daily → current.originId = some d → d ≠ "" →
      (updateTitle id next s).dailyItems
          = s.dailyItems.map (fun it =>
              if it.id = d then { it with title := jsTrim next } else it) ∧
      (updateTitle id next s).tasks
          = s.tasks.map (fun t =>
              if (t.origin = some .daily ∧ t.originId = some d) ∨ t.id = id then
                { t with title := jsTrim next }
              else t)) ∧
    (∀ (s : AppState) (id next : String), jsTrim next = "" →
      updateTitle id next s = s) ∧
    (∀ (s : AppState) (id next : String),
      s.tasks.find? (fun t => t.id == id) = none → updateTitle id next s = s) := by
  refine ⟨?_, ?_, ?_⟩
  · intro s id next current d hne hfind horig hoid hd
    have hst : strTruthy current.originId = true := by simp [strTruthy, hoid, hd]
    constructor
    · show (updateTitle id next s).dailyItems = _
      simp only [updateTitle, if_neg hne, hfind, if_pos (And.intro horig hst)]
      apply List.map_congr_left
      intro it _
      by_cases h2 : it.id = d
      · simp [h2, hoid]
      · simp [h2, hoid]
    · show (updateTitle id next s).tasks = _
      simp only [updateTitle, if_neg hne, hfind, if_pos (And.intro horig hst)]
      apply List.map_congr_left
      intro t _
      by_cases h1 : t.origin = some .daily ∧ t.originId = some d
      · simp [h1, hoid]
      · by_cases h2 : t.id = id
        · simp [h1, h2, hoid]
        · simp [h1, h2, hoid]
  · intro s id next hblank
    simp [updateTitle, hblank]
  · intro s id next hnone
    simp [updateTitle, hnone]

/-- C8 amended witness input: the target daily task of the "d7" family. -/
def fanoutTarget : Task :=
  { id := "a", title := "old", status := .todo,
    origin := some .daily, originId := some "d7" }

/-- C8 amended witness input: a sibling task of the same "d7" family. -/
def fanoutSibling : Task :=
  { id := "b", title := "old", status := .completed,
    origin := some .daily, originId := some "d7" }

/-- C8 amended witness input: the board holding the "d7" family. -/
def fanoutState : AppState :=
  { tasks := [fanoutTarget, fanoutSibling],
    dailyItems := [{ id := "d7", title := "old" }],
    lastSeed := none }

/-- C8 amended witness: a two-task daily family with template id "d7". -/
theorem daily_title_fanout_witness :
    (updateTitle "a" " New " fanoutState).dailyItems
      = fanoutState.dailyItems.map (fun it =>
          if it.id = "d7" then { it with title := jsTrim " New " } else it) ∧
    (updateTitle "a" " New " fanoutState).tasks
      = fanoutState.tasks.map (fun t =>
          if (t.origin = some .daily ∧ t.originId = some "d7") ∨ t.id = "a" then
            { t with title := jsTrim " New " }
          else t) :=
  daily_title_fanout.1 fanoutState "a" " New " fanoutTarget "d7"
    (by decide) (by decide) rfl rfl (by decide)

/-- C9: under the data-model invariant that `originId` is present only on
daily-origin tasks, removing a template removes it from the template
collection and filters out every task whose `originId` equals the removed id
(whatever its status), leaving all other tasks unchanged in place. -/
theorem template_removal_cascades (id : String) (s : AppState)
    (hwf : ∀ t ∈ s.tasks, t.originId.isSome → t.origin = some .daily) :
    (removeDaily id s).dailyItems = s.dailyItems.filter (fun d => d.id != id) ∧
    (removeDaily id s).tasks = s.tasks.filter (fun t => !(t.originId == some id)) ∧
    (removeDaily id s).lastSeed = s.lastSeed := by
  refine ⟨rfl, ?_, rfl⟩
  show s.tasks.filter _ = s.tasks.filter _
  apply List.filter_congr
  intro t ht
  by_cases h : t.originId = some id
  · have horig : t.origin = some Origin.daily := hwf t ht (by simp [h])
    simp [h, horig]
  · simp [h]

/-- C9 witness input: a template "T" with two derived tasks (one completed,
one in-progress) plus an unrelated manual task and a second template. -/
def cascadeState : AppState :=
  { tasks :=
      [{ id := "a", title := "A", status := .completed,
         origin := some .daily, originId := some "T" },
       { id := "b", title := "B", status := .in_progress,
         origin := some .daily, originId := some "T", startedAt := some 5 },
       { id := "c", title := "C", status := .todo, origin := some .manual }],
    dailyItems := [{ id := "T", title := "tpl" }, { id := "U", title := "other" }],
    lastSeed := none }

/-- C9 witness: instantiates the cascade theorem at `cascadeState`. -/
theorem template_removal_cascades_witness :
    (removeDaily "T" cascadeState).dailyItems
      = cascadeState.dailyItems.filter (fun d => d.id != "T") ∧
    (removeDaily "T" cascadeState).tasks
      = cascadeState.tasks.filter (fun t => !(t.originId == some "T")) ∧
    (removeDaily "T" cascadeState).lastSeed = cascadeState.lastSeed :=
  template_removal_cascades "T" cascadeState (by decide)

/-- Anything in an `insertIdx` result is the inserted element or an element
of the original list (no index bound needed). -/
theorem mem_insertIdx_elim {α : Type} {a b : α} :
    ∀ {n : Nat} {l : List α}, a ∈ List.insertIdx n b l → a = b ∨ a ∈ l := by
  intro n
  induction n with
  | zero =>
    intro l h
    rw [List.insertIdx_zero] at h
    rcases List.mem_cons.1 h with h | h
    · exact Or.inl h
    · exact Or.inr h
  | succ n ih =>
    intro l h
    cases l with
    | nil => rw [List.insertIdx_succ_nil] at h; exact Or.inr h
    | cons c l2 =>
      rw [List.insertIdx_succ_cons] at h
      rcases List.mem_cons.1 h with h | h
      · exact Or.inr (h ▸ List.mem_cons_self c l2)
      · rcases ih h with h | h
        · exact Or.inl h
        · exact Or.inr (List.mem_cons_of_mem c h)

/-- `map` commutes with `insertIdx`. -/
theorem map_insertIdx_comm {α β : Type} (f : α → β) (b : α) :
    ∀ (n : Nat) (l : List α),
      (List.insertIdx n b l).map f = List.insertIdx n (f b) (l.map f) := by
  intro n
  induction n with
  | zero => intro l; simp [List.insertIdx_zero]
  | succ n ih =>
    intro l
    cases l with
    | nil => simp [List.insertIdx_succ_nil]
    | cons c l2 => simp [List.insertIdx_succ_cons, ih]

/-- Inserting within bounds is a permutation of consing. -/
theorem insertIdx_perm_cons {α : Type} (b : α) :
    ∀ (n : Nat) (l : List α), n ≤ l.length →
      List.Perm (List.insertIdx n b l) (b :: l) := by
  intro n
  induction n with
  | zero => intro l _; rw [List.insertIdx_zero]
  | succ n ih =>
    intro l h
    cases l with
    | nil => exact absurd h (by simp)
    | cons c l2 =>
      rw [List.insertIdx_succ_cons]
      exact ((ih l2 (Nat.le_of_succ_le_succ h)).cons c).trans (List.Perm.swap b c l2)

/-- A list is a permutation of its `i`-th element consed onto the list with
that element erased. -/
theorem perm_cons_eraseIdx {α : Type} {a : α} :
    ∀ {l : List α} {i : Nat}, l[i]? = some a →
      List.Perm l (a :: l.eraseIdx i) := by
  intro l
  induction l with
  | nil => intro i h; simp at h
  | cons c l2 ih =>
    intro i h
    cases i with
    | zero =>
      simp only [List.getElem?_cons_zero, Option.some.injEq] at h
      rw [h, List.eraseIdx_cons_zero]
    | succ i =>
      rw [List.getElem?_cons_succ] at h
      rw [List.eraseIdx_cons_succ]
      exact ((ih h).cons c).trans (List.Perm.swap a c (l2.eraseIdx i))

/-- `map` commutes with `eraseIdx`. -/
theorem map_eraseIdx_comm {α β : Type} (f : α → β) :
    ∀ (l : List α) (i : Nat), (l.eraseIdx i).map f = (l.map f).eraseIdx i := by
  intro l
  induction l with
  | nil => intro i; simp
  | cons c l2 ih =>
    intro i
    cases i with
    | zero => simp
    | succ i => simp [List.eraseIdx_cons_succ, ih]

/-- A successful `findIdx?` returns an index within bounds. -/
theorem findIdx?_lt_length {α : Type} {p : α → Bool} {l : List α} {i : Nat}
    (h : l.findIdx? p = some i) : i < l.length := by
  rcases List.findIdx?_eq_some_iff_getElem.1 h with ⟨hi, _, _⟩
  exact hi

/-- Erasing an index keeps only elements of the original list. -/
theorem mem_of_mem_eraseIdx {α : Type} {a : α} {l : List α} {i : Nat}
    (h : a ∈ l.eraseIdx i) : a ∈ l :=
  (List.eraseIdx_sublist l i).subset h

/-- `transitionTask` always lands on the requested status. -/
theorem transitionTask_status (t : Task) (st : Status) (now : Int) :
    (transitionTask t st now).status = st := by
  unfold transitionTask
  split_ifs with h1 h2 h3 h4 <;> simp_all

/-- `transitionTask` never changes the task id. -/
theorem transitionTask_id (t : Task) (st : Status) (now : Int) :
    (transitionTask t st now).id = t.id := by
  unfold transitionTask
  split_ifs <;> rfl

/-- `transitionTask` never touches the `paused` flag itself. -/
theorem transitionTask_paused (t : Task) (st : Status) (now : Int) :
    (transitionTask t st now).paused = t.paused := by
  unfold transitionTask
  split_ifs <;> rfl

/-- `transitionTask` keeps stored start timestamps nonzero when the clock is
nonzero. -/
theorem transitionTask_startTimes (t : Task) (st : Status) (now : Int)
    (ht : ∀ v : Int, t.startedAt = some v → v ≠ 0) (hnow : now ≠ 0) :
    ∀ v : Int, (transitionTask t st now).startedAt = some v → v ≠ 0 := by
  intro v hv
  unfold transitionTask at hv
  split_ifs at hv with h1 h2 h3 h4
  · simp only [Option.some.injEq] at hv
    cases hs : t.startedAt with
    | none =>
      rw [hs] at hv
      simp only [Option.getD_none] at hv
      omega
    | some w =>
      rw [hs] at hv
      simp only [Option.getD_some] at hv
      have := ht w hs
      omega
  · exact ht v hv
  · simp only [Option.some.injEq] at hv
    omega
  · exact ht v hv

/-- A task produced by `transitionTask` with the `paused` override the
callers use satisfies both per-element state invariants. -/
theorem transUpdate_ok (t : Task) (target : Status) (now : Int) (p : Option Bool)
    (ht : ∀ v : Int, t.startedAt = some v → v ≠ 0) (hnow : now ≠ 0)
    (hp : target = .in_progress → p = some false) :
    (∀ v : Int,
      ({ transitionTask t target now with paused := p }).startedAt = some v → v ≠ 0) ∧
    (({ transitionTask t target now with paused := p }).status = .in_progress →
      boolTruthy ({ transitionTask t target now with paused := p }).paused = true →
      ({ transitionTask t target now with paused := p }).startedAt = none) := by
  constructor
  · intro v hv
    exact transitionTask_startTimes t target now ht hnow v hv
  · intro hip hpaused
    by_cases htgt : target = .in_progress
    · have hps : ({ transitionTask t target now with paused := p }).paused = some false :=
        hp htgt
      rw [hps] at hpaused
      simp [boolTruthy] at hpaused
    · have hst : ({ transitionTask t target now with paused := p }).status = target :=
        transitionTask_status t target now
      exact absurd (hst.symm.trans hip) htgt

/-- `updateStatusOp` preserves the state invariant for nonzero clocks. -/
theorem TasksOk_updateStatusOp (id : String) (target : Status) (now : Int)
    (ts : List Task) (h : TasksOk ts) (hnow : now ≠ 0) :
    TasksOk (updateStatusOp id target now ts) := by
  obtain ⟨h1, h2⟩ := h
  constructor
  · intro x hx v hv
    rcases List.mem_map.1 hx with ⟨t, ht, rfl⟩
    by_cases hid : t.id = id
    · rw [if_pos hid] at hv
      exact (transUpdate_ok t target now _ (h1 t ht) hnow (fun hh => if_pos hh)).1 v hv
    · rw [if_neg hid] at hv
      exact h1 t ht v hv
  · intro x hx hip hpaused
    rcases List.mem_map.1 hx with ⟨t, ht, rfl⟩
    by_cases hid : t.id = id
    · rw [if_pos hid] at hip hpaused ⊢
      exact (transUpdate_ok t target now _ (h1 t ht) hnow (fun hh => if_pos hh)).2
        hip hpaused
    · rw [if_neg hid] at hip hpaused ⊢
      exact h2 t ht hip hpaused

/-- `onToggleRun` preserves the state invariant for nonzero clocks. -/
theorem TasksOk_onToggleRun (id : String) (now : Int) (ts : List Task)
    (h : TasksOk ts) (hnow : now ≠ 0) :
    TasksOk (onToggleRun id now ts) := by
  obtain ⟨h1, h2⟩ := h
  constructor
  · intro x hx v hv
    rcases List.mem_map.1 hx with ⟨t, ht, rfl⟩
    split_ifs at hv
    all_goals
      first
        | exact h1 t ht v hv
        | (simp only [Option.some.injEq] at hv; omega)
        | simp at hv
  · intro x hx hip hpaused
    rcases List.mem_map.1 hx with ⟨t, ht, rfl⟩
    split_ifs at hip hpaused ⊢
    all_goals
      first
        | exact h2 t ht hip hpaused
        | rfl
        | (simp [boolTruthy] at hpaused)

/-- `addTaskOp` preserves the state invariant (fresh tasks have no
`startedAt`). -/
theorem TasksOk_addTaskOp (id title : String) (ts : List Task)
    (h : TasksOk ts) : TasksOk (addTaskOp id title ts) := by
  unfold addTaskOp
  split_ifs
  · exact h
  · obtain ⟨h1, h2⟩ := h
    constructor
    · intro x hx v hv
      rcases List.mem_cons.1 hx with rfl | hx
      · simp at hv
      · exact h1 x hx v hv
    · intro x hx hip hpaused
      rcases List.mem_cons.1 hx with rfl | hx
      · rfl
      · exact h2 x hx hip hpaused

/-- Every seeded task has `startedAt` absent. -/
theorem seedTasks_startedAt_none (gen : Nat → String) :
    ∀ (i : Nat) (ds : List DailyItem) (x : Task),
      x ∈ seedTasks gen i ds → x.startedAt = none := by
  intro i ds
  induction ds generalizing i with
  | nil => intro x hx; simp [seedTasks] at hx
  | cons d ds ih =>
    intro x hx
    rcases List.mem_cons.1 hx with rfl | hx
    · rfl
    · exact ih (i + 1) x hx

/-- Seeding preserves the state invariant. -/
theorem TasksOk_seed (gen : Nat → String) (items : List DailyItem)
    (ts : List Task) (h : TasksOk ts) :
    TasksOk (seedTasks gen 0 items ++ ts) := by
  obtain ⟨h1, h2⟩ := h
  constructor
  · intro x hx v hv
    rcases List.mem_append.1 hx with hx | hx
    · rw [seedTasks_startedAt_none gen 0 items x hx] at hv
      simp at hv
    · exact h1 x hx v hv
  · intro x hx hip hpaused
    rcases List.mem_append.1 hx with hx | hx
    · exact seedTasks_startedAt_none gen 0 items x hx
    · exact h2 x hx hip hpaused

/-- The state invariant is pointwise, hence closed under taking any
subcollection. -/
theorem TasksOk_mono {l ts : List Task} (hsub : ∀ a ∈ l, a ∈ ts)
    (h : TasksOk ts) : TasksOk l :=
  ⟨fun t ht => h.1 t (hsub t ht), fun t ht => h.2 t (hsub t ht)⟩

/-- `dropOnColumnOp` preserves the state invariant for nonzero clocks. -/
theorem TasksOk_dropOnColumnOp (id : String) (target : Status) (now : Int)
    (ts : List Task) (h : TasksOk ts) (hnow : now ≠ 0) :
    TasksOk (dropOnColumnOp id target now ts) := by
  unfold dropOnColumnOp
  split
  · exact h
  · split_ifs
    · exact TasksOk_updateStatusOp id target now ts h hnow
    · exact h

/-- `dropOnCardOp` preserves the state invariant for nonzero clocks. -/
theorem TasksOk_dropOnCardOp (activeId overId : String) (now : Int)
    (ts : List Task) (h : TasksOk ts) (hnow : now ≠ 0) :
    TasksOk (dropOnCardOp activeId overId now ts) := by
  unfold dropOnCardOp
  split
  · exact h
  · split
    · exact h
    · split
      · exact h
      · rename_i xa over heqover xb i heqidx xc dragged hget
        have hdr : dragged ∈ ts := List.getElem?_mem hget
        simp only []
        constructor
        · intro x hx v hv
          rcases mem_insertIdx_elim hx with rfl | hx2
          · exact (transUpdate_ok dragged over.status now _ (h.1 dragged hdr) hnow
              (fun hh => if_pos hh)).1 v hv
          · exact h.1 x (mem_of_mem_eraseIdx hx2) v hv
        · intro x hx hip hpaused
          rcases mem_insertIdx_elim hx with rfl | hx2
          · exact (transUpdate_ok dragged over.status now _ (h.1 dragged hdr) hnow
              (fun hh => if_pos hh)).2 hip hpaused
          · exact h.2 x (mem_of_mem_eraseIdx hx2) hip hpaused

/-- Task filtering (plain removal and cascade removal) preserves the state
invariant. -/
theorem TasksOk_filter (p : Task → Bool) (ts : List Task) (h : TasksOk ts) :
    TasksOk (ts.filter p) :=
  TasksOk_mono (fun a ha => List.mem_of_mem_filter ha) h

/-- Every operation with a nonzero clock value preserves the state
invariant. -/
theorem TasksOk_applyOp (op : Op) (ts : List Task) (h : TasksOk ts)
    (ht : op.timeOkB = true) : TasksOk (applyOp op ts) := by
  cases op with
  | create id title => exact TasksOk_addTaskOp id title ts h
  | updateStatus id target t =>
    exact TasksOk_updateStatusOp id target t ts h (by simpa [Op.timeOkB] using ht)
  | dropOnColumn id target t =>
    exact TasksOk_dropOnColumnOp id target t ts h (by simpa [Op.timeOkB] using ht)
  | dropOnCard a o t =>
    exact TasksOk_dropOnCardOp a o t ts h (by simpa [Op.timeOkB] using ht)
  | toggleRun id t =>
    exact TasksOk_onToggleRun id t ts h (by simpa [Op.timeOkB] using ht)
  | seed items gen => exact TasksOk_seed gen items ts h
  | removeTemplate tid => exact TasksOk_filter _ ts h

/-- `updateStatusOp` keeps the id sequence unchanged. -/
theorem ids_updateStatusOp (id : String) (target : Status) (now : Int)
    (ts : List Task) :
    (updateStatusOp id target now ts).map Task.id = ts.map Task.id := by
  unfold updateStatusOp
  rw [List.map_map]
  apply List.map_congr_left
  intro t _
  simp only [Function.comp]
  by_cases hid : t.id = id
  · rw [if_pos hid]
    exact transitionTask_id t target now
  · rw [if_neg hid]

/-- `onToggleRun` keeps the id sequence unchanged. -/
theorem ids_onToggleRun (id : String) (now : Int) (ts : List Task) :
    (onToggleRun id now ts).map Task.id = ts.map Task.id := by
  unfold onToggleRun
  rw [List.map_map]
  apply List.map_congr_left
  intro t _
  simp only [Function.comp]
  split_ifs <;> rfl

/-- `enforceCore` keeps the id sequence unchanged. -/
theorem ids_enforceCore (now : Int) (ts : List Task) :
    (enforceCore now ts).map Task.id = ts.map Task.id := by
  unfold enforceCore
  split
  · rfl
  · rw [List.map_map]
    apply List.map_congr_left
    intro t _
    simp only [Function.comp]
    unfold enforceBody
    split_ifs <;> rfl

/-- `dropOnCardOp` permutes the id sequence. -/
theorem ids_dropOnCardOp (activeId overId : String) (now : Int) (ts : List Task) :
    List.Perm ((dropOnCardOp activeId overId now ts).map Task.id)
      (ts.map Task.id) := by
  unfold dropOnCardOp
  split
  · exact List.Perm.refl _
  · split
    · exact List.Perm.refl _
    · split
      · exact List.Perm.refl _
      · rename_i xa over heqover xb i heqidx xc dragged hget
        simp only []
        set item : Task :=
          { transitionTask dragged over.status now with
            paused := if over.status = Status.in_progress then some false
                      else dragged.paused } with hitem
        set arr : List Task := ts.eraseIdx i with harr
        set j : Nat := (arr.findIdx? (fun t => t.id == over.id)).getD 0 with hj
        have hid_item : item.id = dragged.id := transitionTask_id dragged over.status now
        have hjle : j ≤ (arr.map Task.id).length := by
          rw [List.length_map]
          rw [hj]
          cases hfi : arr.findIdx? (fun t => t.id == over.id) with
          | none => simp
          | some k => simpa using Nat.le_of_lt (findIdx?_lt_length hfi)
        have e1 : (arr.insertIdx j item).map Task.id
            = List.insertIdx j dragged.id (arr.map Task.id) := by
          rw [map_insertIdx_comm, hid_item]
        have e2 : arr.map Task.id = (ts.map Task.id).eraseIdx i :=
          map_eraseIdx_comm Task.id ts i
        have hgetids : (ts.map Task.id)[i]? = some dragged.id := by
          rw [List.getElem?_map, hget]
          rfl
        rw [e1, e2]
        exact ((insertIdx_perm_cons dragged.id j _ (by rw [← e2]; exact hjle)).trans
          (perm_cons_eraseIdx hgetids).symm)

/-- Nodup ids are preserved, and the result's ids come from the operation's
fresh ids or the previous ids. -/
theorem ids_applyOp (op : Op) (ts : List Task)
    (hnd : (ts.map Task.id).Nodup)
    (hdisj : ∀ a ∈ op.newIds, a ∉ ts.map Task.id)
    (hndnew : op.newIds.Nodup) :
    ((applyOp op ts).map Task.id).Nodup ∧
    ∀ a ∈ (applyOp op ts).map Task.id, a ∈ op.newIds ∨ a ∈ ts.map Task.id := by
  cases op with
  | create id title =>
    simp only [applyOp]
    unfold addTaskOp
    split_ifs
    · exact ⟨hnd, fun a ha => Or.inr ha⟩
    · constructor
      · rw [List.map_cons]
        exact List.Nodup.cons (hdisj id (by simp [Op.newIds])) hnd
      · intro a ha
        rw [List.map_cons, List.mem_cons] at ha
        rcases ha with rfl | ha
        · exact Or.inl (by simp [Op.newIds])
        · exact Or.inr ha
  | updateStatus id target t =>
    simp only [applyOp, ids_updateStatusOp]
    exact ⟨hnd, fun a ha => Or.inr ha⟩
  | dropOnColumn id target t =>
    simp only [applyOp]
    unfold dropOnColumnOp
    split
    · exact ⟨hnd, fun a ha => Or.inr ha⟩
    · split_ifs
      · rw [ids_updateStatusOp]
        exact ⟨hnd, fun a ha => Or.inr ha⟩
      · exact ⟨hnd, fun a ha => Or.inr ha⟩
  | dropOnCard a o t =>
    simp only [applyOp]
    have hperm := ids_dropOnCardOp a o t ts
    exact ⟨hperm.nodup_iff.2 hnd, fun x hx => Or.inr (hperm.subset hx)⟩
  | toggleRun id t =>
    simp only [applyOp, ids_onToggleRun]
    exact ⟨hnd, fun a ha => Or.inr ha⟩
  | seed items gen =>
    simp only [applyOp]
    rw [List.map_append]
    constructor
    · exact List.Nodup.append hndnew hnd (fun a h1 h2 => hdisj a h1 h2)
    · intro x hx
      rcases List.mem_append.1 hx with hx | hx
      · exact Or.inl hx
      · exact Or.inr hx
  | removeTemplate tid =>
    simp only [applyOp]
    have hsub : List.Sublist
        ((ts.filter fun t =>
          !(t.origin == some Origin.daily && t.originId == some tid)).map Task.id)
        (ts.map Task.id) :=
      (List.filter_sublist ts).map Task.id
    exact ⟨hsub.nodup hnd, fun a ha => Or.inr (hsub.subset ha)⟩

/-- Full characterization of one enforcement step on one task: the result is
a runner candidate exactly when the original task was `in_progress`,
non-paused and carried the runner's id; a non-candidate `in_progress` result
has `startedAt` absent; and both per-element state invariants hold. -/
theorem enforce_body_char (now : Int) (runnerId : String) (t : Task)
    (htimes : ∀ v : Int, t.startedAt = some v → v ≠ 0)
    (hpstop : t.status = .in_progress → boolTruthy t.paused = true → t.startedAt = none)
    (hnow : now ≠ 0) :
    (isRunnerB (enforceBody now runnerId t)
      = (t.status == Status.in_progress && !boolTruthy t.paused && t.id == runnerId)) ∧
    ((enforceBody now runnerId t).status = Status.in_progress →
      isRunnerB (enforceBody now runnerId t) = false →
      (enforceBody now runnerId t).startedAt = none) ∧
    (∀ v : Int, (enforceBody now runnerId t).startedAt = some v → v ≠ 0) ∧
    ((enforceBody now runnerId t).status = Status.in_progress →
      boolTruthy (enforceBody now runnerId t).paused = true →
      (enforceBody now runnerId t).startedAt = none) := by
  unfold enforceBody
  split_ifs with h1 h2 h3 h4 h5
  · -- not in_progress: untouched
    refine ⟨?_, ?_, htimes, hpstop⟩
    · have hb : (t.status == Status.in_progress) = false := by
        simp [h1]
      simp [isRunnerB, hb]
    · intro hip _
      exact absurd hip h1
  · -- runner id, paused: untouched, and stopped by the invariant
    have hstat : t.status = Status.in_progress := not_not.1 h1
    have hstop : t.startedAt = none := hpstop hstat h3
    refine ⟨?_, ?_, htimes, hpstop⟩
    · simp [isRunnerB, hstop, h3]
    · intro _ _
      exact hstop
  · -- runner id, not paused, no truthy startedAt: auto-started
    have hstat : t.status = Status.in_progress := not_not.1 h1
    have hnp : boolTruthy t.paused = false := by
      rcases Bool.eq_false_or_eq_true (boolTruthy t.paused) with h | h
      · exact absurd h h3
      · exact h
    refine ⟨?_, ?_, ?_, ?_⟩
    · simp [isRunnerB, hstat, h2, hnp]
    · intro _ hfr
      exfalso
      simp [isRunnerB, hstat, hnp] at hfr
    · intro v hv
      simp only [Option.some.injEq] at hv
      omega
    · intro _ hpt
      exact absurd hpt (by simp [hnp])
  · -- runner id, not paused, already running: untouched
    have hstat : t.status = Status.in_progress := not_not.1 h1
    have hnp : boolTruthy t.paused = false := by
      rcases Bool.eq_false_or_eq_true (boolTruthy t.paused) with h | h
      · exact absurd h h3
      · exact h
    have htr : intTruthy t.startedAt = true := by
      rcases Bool.eq_false_or_eq_true (intTruthy t.startedAt) with h | h
      · exact h
      · exact absurd (by simp [h]) h4
    have hsome : t.startedAt.isSome = true := by
      cases hs : t.startedAt with
      | none => rw [hs] at htr; simp [intTruthy] at htr
      | some v => rfl
    refine ⟨?_, ?_, htimes, hpstop⟩
    · simp [isRunnerB, hstat, h2, hnp, hsome]
    · intro _ hfr
      exfalso
      simp [isRunnerB, hstat, hnp, hsome] at hfr
  · -- other id, running: folded and cleared
    have hstat : t.status = Status.in_progress := not_not.1 h1
    refine ⟨?_, ?_, ?_, ?_⟩
    · simp [isRunnerB, foldStop, h2]
    · intro _ _
      rfl
    · intro v hv
      simp [foldStop] at hv
    · intro _ _
      rfl
  · -- other id, not running: untouched, startedAt is already absent
    have hnone : t.startedAt = none := by
      cases hs : t.startedAt with
      | none => rfl
      | some v =>
        exfalso
        exact h5 (by simp [intTruthy, hs, htimes v hs])
    refine ⟨?_, ?_, htimes, hpstop⟩
    · simp [isRunnerB, hnone, h2]
    · intro _ _
      exact hnone

/-- In a duplicate-free list of strings, at most one entry equals any given
string. -/
theorem countP_beq_le_one (a : String) :
    ∀ (l : List String), l.Nodup → l.countP (fun s => s == a) ≤ 1 := by
  intro l
  induction l with
  | nil => intro _; simp
  | cons b l ih =>
    intro hnd
    rw [List.countP_cons]
    rcases List.nodup_cons.1 hnd with ⟨hb, hl⟩
    by_cases hba : b = a
    · have hz : l.countP (fun s => s == a) = 0 := by
        apply List.countP_eq_zero.2
        intro x hx hxa
        rw [beq_iff_eq] at hxa
        exact hb ((hxa.trans hba.symm) ▸ hx)
      simp [hz, hba]
    · simp [hba, ih hl]

/-- Runner enforcement preserves the state invariant and establishes the
runner invariant, on collections with duplicate-free ids and nonzero
clocks. -/
theorem enforceCore_ok (now : Int) (ts : List Task)
    (hok : TasksOk ts) (hnd : (ts.map Task.id).Nodup) (hnow : now ≠ 0) :
    TasksOk (enforceCore now ts) ∧ RunnerInvariant (enforceCore now ts) := by
  unfold enforceCore
  split
  · -- no non-paused in_progress task: nothing changes, nothing runs
    rename_i xa heq
    have hall := List.find?_eq_none.1 heq
    have hstop : ∀ x ∈ ts, x.status = Status.in_progress → x.startedAt = none := by
      intro x hx hip
      have hnp := hall x hx
      have hp : boolTruthy x.paused = true := by
        rcases Bool.eq_false_or_eq_true (boolTruthy x.paused) with h | h
        · exact h
        · exact absurd (by simp [hip, h]) hnp
      exact hok.2 x hx hip hp
    refine ⟨hok, ?_, ?_⟩
    · have hz : ts.countP isRunnerB = 0 := by
        apply List.countP_eq_zero.2
        intro x hx hr
        simp only [isRunnerB, Bool.and_eq_true, beq_iff_eq] at hr
        rw [hstop x hx hr.1.1] at hr
        simp at hr
      omega
    · intro x hx hip _
      exact hstop x hx hip
  · -- a runner exists
    rename_i xa runner heq
    have hchar : ∀ t ∈ ts,
        (isRunnerB (enforceBody now runner.id t)
          = (t.status == Status.in_progress && !boolTruthy t.paused
              && t.id == runner.id)) ∧
        ((enforceBody now runner.id t).status = Status.in_progress →
          isRunnerB (enforceBody now runner.id t) = false →
          (enforceBody now runner.id t).startedAt = none) ∧
        (∀ v : Int, (enforceBody now runner.id t).startedAt = some v → v ≠ 0) ∧
        ((enforceBody now runner.id t).status = Status.in_progress →
          boolTruthy (enforceBody now runner.id t).paused = true →
          (enforceBody now runner.id t).startedAt = none) :=
      fun t ht => enforce_body_char now runner.id t (hok.1 t ht) (hok.2 t ht) hnow
    refine ⟨⟨?_, ?_⟩, ?_, ?_⟩
    · intro x hx v hv
      rcases List.mem_map.1 hx with ⟨t, ht, rfl⟩
      exact (hchar t ht).2.2.1 v hv
    · intro x hx hip hp
      rcases List.mem_map.1 hx with ⟨t, ht, rfl⟩
      exact (hchar t ht).2.2.2 hip hp
    · rw [List.countP_map]
      have e1 : ts.countP (isRunnerB ∘ enforceBody now runner.id)
          = ts.countP (fun t => t.status == Status.in_progress
              && !boolTruthy t.paused && t.id == runner.id) := by
        apply List.countP_congr
        intro t ht
        rw [Function.comp_apply, (hchar t ht).1]
      have e2 : ts.countP (fun t => t.status == Status.in_progress
            && !boolTruthy t.paused && t.id == runner.id)
          ≤ ts.countP (fun t => t.id == runner.id) := by
        apply List.countP_mono_left
        intro x _ hx
        simp only [Bool.and_eq_true] at hx
        exact hx.2
      have e3 : ts.countP (fun t => t.id == runner.id)
          = (ts.map Task.id).countP (fun s => s == runner.id) := by
        rw [List.countP_map]
        rfl
      have e4 := countP_beq_le_one runner.id (ts.map Task.id) hnd
      omega
    · intro x hx hip hfr
      rcases List.mem_map.1 hx with ⟨t, ht, rfl⟩
      exact (hchar t ht).2.1 hip hfr

/-- Main induction: from any state satisfying the invariants, running any
sequence of operations (nonzero clocks, globally duplicate-free fresh ids,
each step followed by runner enforcement) preserves the state invariant,
keeps ids duplicate-free, and ends in a state satisfying the runner
invariant. -/
theorem runFrom_ok :
    ∀ (seq : List (Op × Int)) (ts : List Task),
      (∀ p ∈ seq, p.1.timeOkB = true ∧ p.2 ≠ 0) →
      (seqNewIds seq ++ ts.map Task.id).Nodup →
      TasksOk ts → RunnerInvariant ts →
      TasksOk (runFrom ts seq) ∧ ((runFrom ts seq).map Task.id).Nodup ∧
        RunnerInvariant (runFrom ts seq) := by
  intro seq
  induction seq with
  | nil =>
    intro ts _ hbig hok hri
    have hnd : (ts.map Task.id).Nodup := by
      simpa [seqNewIds] using hbig
    exact ⟨hok, hnd, hri⟩
  | cons p seq ih =>
    intro ts htimes hbig hok _
    have hstep : runFrom ts (p :: seq) = runFrom (step ts p) seq := by
      simp [runFrom]
    have hp := htimes p (List.mem_cons_self p seq)
    have hbig2 : (p.1.newIds ++ (seqNewIds seq ++ ts.map Task.id)).Nodup := by
      have e : seqNewIds (p :: seq) = p.1.newIds ++ seqNewIds seq := by
        simp [seqNewIds]
      rw [e, List.append_assoc] at hbig
      exact hbig
    rcases List.nodup_append.1 hbig2 with ⟨hnd1, hnd2, hdisj12⟩
    rcases List.nodup_append.1 hnd2 with ⟨hndseq, hndts, hdisjseqts⟩
    have hdisjnew : ∀ a ∈ p.1.newIds, a ∉ ts.map Task.id := by
      intro a ha hmem
      exact hdisj12 ha (List.mem_append.2 (Or.inr hmem))
    obtain ⟨hnd_ts1, hsub_ts1⟩ := ids_applyOp p.1 ts hndts hdisjnew hnd1
    have hok1 : TasksOk (applyOp p.1 ts) := TasksOk_applyOp p.1 ts hok hp.1
    obtain ⟨hok2, hri2⟩ := enforceCore_ok p.2 (applyOp p.1 ts) hok1 hnd_ts1 hp.2
    have hids2 : (step ts p).map Task.id = (applyOp p.1 ts).map Task.id :=
      ids_enforceCore p.2 (applyOp p.1 ts)
    have hnd_ts2 : ((step ts p).map Task.id).Nodup := by
      rw [hids2]; exact hnd_ts1
    have hdisj2 : List.Disjoint (seqNewIds seq) ((step ts p).map Task.id) := by
      intro a haseq hats2
      rw [hids2] at hats2
      rcases hsub_ts1 a hats2 with hnew | hold
      · exact hdisj12 hnew (List.mem_append.2 (Or.inl haseq))
      · exact hdisjseqts haseq hold
    have hbigrest : (seqNewIds seq ++ (step ts p).map Task.id).Nodup :=
      List.Nodup.append hndseq hnd_ts2 hdisj2
    have htimesrest : ∀ q ∈ seq, q.1.timeOkB = true ∧ q.2 ≠ 0 :=
      fun q hq => htimes q (List.mem_cons_of_mem p hq)
    rw [hstep]
    exact ih (step ts p) htimesrest hbigrest hok2 hri2

/-- C1 (amended): starting from the empty collection, after any sequence of
operations (create, update-status, move/reorder, toggle-run, seeding,
cascade removal) — each followed by runner enforcement — in which every
clock value is nonzero and the generated task ids are pairwise distinct (the
data model's id-uniqueness assumption), at most one task has
`status = in_progress ∧ paused = false ∧ startedAt` set, and every other
`in_progress` task has `startedAt` absent. -/
theorem runner_invariant_holds (seq : List (Op × Int))
    (htimes : ∀ p ∈ seq, p.1.timeOkB = true ∧ p.2 ≠ 0)
    (hids : (seqNewIds seq).Nodup) :
    RunnerInvariant (runOps seq) := by
  have hok : TasksOk ([] : List Task) := by
    constructor
    · intro t ht
      exact absurd ht (List.not_mem_nil t)
    · intro t ht
      exact absurd ht (List.not_mem_nil t)
  have hri : RunnerInvariant ([] : List Task) := by
    constructor
    · simp
    · intro t ht
      exact absurd ht (List.not_mem_nil t)
  have h := runFrom_ok seq [] htimes (by simpa using hids) hok hri
  exact h.2.2

/-- C1 witness input: create a task, start it at t=1000, complete it at
t=5000 (enforcement after each step). -/
def okSeq : List (Op × Int) :=
  [(.create "a" "Write report", 1),
   (.updateStatus "a" .in_progress 1000, 1000),
   (.updateStatus "a" .completed 5000, 5000)]

/-- C1 witness: the amended invariant theorem applied to `okSeq`. -/
theorem runner_invariant_holds_witness :
    (∀ p ∈ okSeq, p.1.timeOkB = true ∧ p.2 ≠ 0) ∧
    (seqNewIds okSeq).Nodup ∧
    RunnerInvariant (runOps okSeq) :=
  ⟨by decide, by decide, runner_invariant_holds okSeq (by decide) (by decide)⟩

/-- C1 counterexample input: create two tasks, set "a" to `in_progress` with
the clock reading 0 (enforcement also at 0), then set "b" to `in_progress`
at time 5 (enforcement at 6). -/
def zeroClockSeq : List (Op × Int) :=
  [(.create "a" "A", 1), (.create "b" "B", 1),
   (.updateStatus "a" .in_progress 0, 0),
   (.updateStatus "b" .in_progress 5, 6)]

/-- C1 counterexample: with a clock that reads exactly 0, the sequence
`zeroClockSeq` ends with BOTH tasks `in_progress`, non-paused and with
`startedAt` set (task "a" keeps the falsy `startedAt = some 0`, which
enforcement never folds), so the claimed invariant fails. -/
theorem runner_invariant_fails_at_zero_clock :
    ¬ RunnerInvariant (runOps zeroClockSeq) := by
  simp only [RunnerInvariant]
  decide

/-- C10 witness: toggling a todo task and an absent id changes nothing. -/
theorem toggle_run_noop_witness :
    onToggleRun "a" 5 [{ id := "a", title := "A", status := .todo }]
        = [{ id := "a", title := "A", status := .todo }] ∧
    onToggleRun "zzz" 5 [{ id := "a", title := "A", status := .todo }]
        = [{ id := "a", title := "A", status := .todo }] := by
  constructor
  · exact toggle_run_noop_outside_in_progress "a" 5 _ (by decide)
  · exact toggle_run_noop_outside_in_progress "zzz" 5 _ (by decide)

end Todo
